import Mathlib

/-
Verification of the tiled-map parsing core of rs-tiled: the two-phase tileset
resolution protocol (`src/tileset.rs`) and object / object-group / shape decoding
(`src/object.rs`), over a shallow embedding of the pull-style event cursor.
Out-of-scope collaborators (the `get_attrs!` attribute extractor, the `parse_tag!`
tag dispatcher, primitive string coercions, `Image` / `Tile` / property parsing, and
the filesystem) are modelled from the specification, as marked on each definition.
-/

set_option maxHeartbeats 1000000

deriving instance DecidableEq for Except

namespace Tiled

/-- Error type of the library (`error.rs`, a collaborator outside the shown source):
the variants used by the parsing core. -/
inductive TiledError where
  | MalformedAttributes (msg : String)
  | PrematureEnd (msg : String)
  | XmlDecodingError
  | Other (msg : String)
deriving DecidableEq, Repr

/-- Pull-style cursor events of the tree-structured input document (the xml-rs
collaborator): start tag with attributes, end tag, end of document, an ignorable
event, and a marker making the cursor's next read fail with a decoding error. -/
inductive RawEvent where
  | start (name : String) (attrs : List (String × String))
  | end_ (name : String)
  | endDocument
  | other
  | decodeError
deriving DecidableEq, Repr

/-- Numeric value of a list of decimal digit characters. -/
def digitsVal (cs : List Char) : Nat :=
  cs.foldl (fun a c => a * 10 + (c.toNat - 48)) 0

/-- True when the list is made of decimal digits only. -/
def allDigits (cs : List Char) : Bool :=
  cs.all Char.isDigit

/-- Splits a character list on a separator character, keeping empty chunks,
matching the behavior of splitting a string on a single character. -/
def splitOnChar (sep : Char) : List Char → List (List Char)
  | [] => [[]]
  | c :: rest =>
    if c = sep then [] :: splitOnChar sep rest
    else
      match splitOnChar sep rest with
      | g :: gs => (c :: g) :: gs
      | [] => [[c]]

/-- Modelled from the spec: the unsigned-integer coercion collaborator (`u32`
parsing): optional plus sign, one or more decimal digits, value within 32 bits. -/
def parseU32 (s : String) : Option Nat :=
  let cs := match s.data with
    | '+' :: t => t
    | t => t
  if !cs.isEmpty && allDigits cs && decide (digitsVal cs < 2 ^ 32) then
    some (digitsVal cs)
  else none

/-- Modelled from the spec: the signed-integer coercion collaborator (`i32`
parsing): optional sign, decimal digits, value within the 32-bit signed range. -/
def parseI32 (s : String) : Option Int :=
  let p := match s.data with
    | '+' :: t => ((1 : Int), t)
    | '-' :: t => ((-1 : Int), t)
    | t => ((1 : Int), t)
  if !p.2.isEmpty && allDigits p.2 &&
      decide (-(2 ^ 31) ≤ p.1 * (digitsVal p.2 : Int) ∧ p.1 * (digitsVal p.2 : Int) < 2 ^ 31) then
    some (p.1 * (digitsVal p.2 : Int))
  else none

/-- Modelled from the spec: the boolean coercion collaborator: exactly the strings
"true" and "false" parse. -/
def parseBool (s : String) : Option Bool :=
  if s = "true" then some true
  else if s = "false" then some false
  else none

/-- Modelled from the spec: the floating-point coercion collaborator (`f32`
parsing), modelled as exact decimal parsing into the rationals: optional sign,
then digits, digits-dot-digits, digits-dot, or dot-digits. -/
def parseF32L (cs : List Char) : Option Rat :=
  let p := match cs with
    | '+' :: t => ((1 : Int), t)
    | '-' :: t => ((-1 : Int), t)
    | t => ((1 : Int), t)
  match splitOnChar '.' p.2 with
  | [i] =>
    if !i.isEmpty && allDigits i then some (mkRat (p.1 * (digitsVal i : Int)) 1)
    else none
  | [i, f] =>
    if (!i.isEmpty || !f.isEmpty) && allDigits i && allDigits f then
      some (mkRat (p.1 * ((digitsVal i * 10 ^ f.length + digitsVal f : Nat) : Int)) (10 ^ f.length))
    else none
  | _ => none

/-- Floating-point coercion on strings (see `parseF32L`). -/
def parseF32 (s : String) : Option Rat :=
  parseF32L s.data

/-- Modelled from the spec: the Attribute Extractor's per-key lookup (part of the
`get_attrs!` macro, which is not in the shown source): find the value of the
attribute with the given name in a tag's raw attribute list. -/
def getAttr (attrs : List (String × String)) (name : String) : Option String :=
  (attrs.find? (fun p => p.1 == name)).map (fun p => p.2)

/-- Modelled from the spec: an optional key of the Attribute Extractor yields a
value exactly when the key is present and the coercion succeeds; a failed coercion
silently degrades to an absent optional. A required key is the same lookup with
the caller failing on `none`. -/
def getOpt {α : Type} (attrs : List (String × String)) (name : String)
    (f : String → Option α) : Option α :=
  (getAttr attrs name).bind f

/-- Modelled from the spec: the Tag Dispatcher consumes and discards the entire
subtree of an unrecognized child tag (cursor positioned just after its start tag),
keeping the cursor synchronized; the depth counts currently open nested tags. -/
def skipTree : Nat → List RawEvent → Except TiledError Unit × List RawEvent
  | _, [] => (.error .XmlDecodingError, [])
  | _, .decodeError :: rest => (.error .XmlDecodingError, rest)
  | _, .endDocument :: rest => (.error (.PrematureEnd "unexpected end of document"), rest)
  | d, .start _ _ :: rest => skipTree (d + 1) rest
  | d, .end_ _ :: rest => if d = 0 then (.ok (), rest) else skipTree (d - 1) rest
  | d, .other :: rest => skipTree d rest

theorem skipTree_len : ∀ (es : List RawEvent) (d : Nat), (skipTree d es).2.length ≤ es.length := by
  intro es
  induction es with
  | nil => intro d; simp [skipTree]
  | cons e rest ih =>
    intro d
    cases e with
    | start n a => simpa [skipTree] using (ih (d + 1)).trans (Nat.le_succ _)
    | end_ n =>
      by_cases hd : d = 0
      · simp [skipTree, hd]
      · simpa [skipTree, hd] using (ih (d - 1)).trans (Nat.le_succ _)
    | endDocument => simp [skipTree]
    | other => simpa [skipTree] using (ih d).trans (Nat.le_succ _)
    | decodeError => simp [skipTree]

/-- Properties mapping produced by the property-parsing collaborator. -/
abbrev Properties := List (String × String)

/-- Modelled from the spec: the external property-parsing collaborator — given the
cursor just after a `properties` start tag it fully consumes through the matching
end tag and returns the mapping, here the name / value attribute pairs of the
`property` child tags seen. -/
def parse_properties : Nat → Properties → List RawEvent →
    Except TiledError Properties × List RawEvent
  | _, _, [] => (.error .XmlDecodingError, [])
  | _, _, .decodeError :: rest => (.error .XmlDecodingError, rest)
  | _, _, .endDocument :: rest => (.error (.PrematureEnd "properties"), rest)
  | d, acc, .start n a :: rest =>
    let acc' := if d = 0 ∧ n = "property" then
        match getAttr a "name", getAttr a "value" with
        | some k, some v => acc ++ [(k, v)]
        | _, _ => acc
      else acc
    parse_properties (d + 1) acc' rest
  | d, acc, .end_ _ :: rest =>
    if d = 0 then (.ok acc, rest) else parse_properties (d - 1) acc rest
  | d, acc, .other :: rest => parse_properties d acc rest

theorem parse_properties_len : ∀ (es : List RawEvent) (d : Nat) (acc : Properties),
    (parse_properties d acc es).2.length ≤ es.length := by
  intro es
  induction es with
  | nil => intro d acc; simp [parse_properties]
  | cons e rest ih =>
    intro d acc
    cases e with
    | start n a => simpa [parse_properties] using (ih (d + 1) _).trans (Nat.le_succ _)
    | end_ n =>
      by_cases hd : d = 0
      · simp [parse_properties, hd]
      · simpa [parse_properties, hd] using (ih (d - 1) acc).trans (Nat.le_succ _)
    | endDocument => simp [parse_properties]
    | other => simpa [parse_properties] using (ih d acc).trans (Nat.le_succ _)
    | decodeError => simp [parse_properties]

/-- True exactly on successful results. -/
def isOkE {ε α : Type} : Except ε α → Bool
  | .ok _ => true
  | .error _ => false

/-- Shape of an object (`ObjectShape` in object.rs). -/
inductive ObjectShape where
  | Rect (width height : Rat)
  | Ellipse (width height : Rat)
  | Polyline (points : List (Rat × Rat))
  | Polygon (points : List (Rat × Rat))
deriving DecidableEq, Repr

/-- An object (the `Object` struct in object.rs). -/
structure Object where
  id : Nat
  gid : Nat
  name : String
  obj_type : String
  x : Rat
  y : Rat
  rotation : Rat
  visible : Bool
  shape : ObjectShape
  properties : Properties
deriving DecidableEq, Repr

/-- Chunk-by-chunk helper of `Object::parse_points` (object.rs lines 162-181): each
space-separated chunk must split on commas into exactly two float components; the
first malformed chunk aborts with its error and no partial list is returned. -/
def parsePointsGo : List (List Char) → Except TiledError (List (Rat × Rat))
  | [] => .ok []
  | p :: ps =>
    match splitOnChar ',' p with
    | [a, b] =>
      match parseF32L a, parseF32L b with
      | some x, some y =>
        match parsePointsGo ps with
        | .ok pts => .ok ((x, y) :: pts)
        | .error e => .error e
      | _, _ => .error (.MalformedAttributes
          "one of polyline's points does not have i32eger coordinates")
    | _ => .error (.MalformedAttributes
        "one of a polyline's points does not have an x and y coordinate")

/-- Object::parse_points (object.rs lines 162-181): split the attribute string on
single spaces and decode every chunk. -/
def parse_points (s : String) : Except TiledError (List (Rat × Rat)) :=
  parsePointsGo (splitOnChar ' ' s.data)

/-- Object::new_polyline (object.rs lines 142-150): the points attribute is
required, then decoded by `parse_points`. -/
def Object.new_polyline (attrs : List (String × String)) : Except TiledError ObjectShape :=
  match getAttr attrs "points" with
  | none => .error (.MalformedAttributes "A polyline must have points")
  | some s =>
    match parse_points s with
    | .ok pts => .ok (.Polyline pts)
    | .error e => .error e

/-- Object::new_polygon (object.rs lines 152-160): the points attribute is
required, then decoded by `parse_points`. -/
def Object.new_polygon (attrs : List (String × String)) : Except TiledError ObjectShape :=
  match getAttr attrs "points" with
  | none => .error (.MalformedAttributes "A polygon must have points")
  | some s =>
    match parse_points s with
    | .ok pts => .ok (.Polygon pts)
    | .error e => .error e

/-- Tag-dispatch loop of Object::new over the object tag's children (object.rs
lines 100-121; dispatcher behavior modelled from the spec): ellipse, polyline and
polygon each unconditionally overwrite the shape slot, properties delegates to the
collaborator replacing the running mapping, and unknown children are skipped
wholesale. -/
def objectLoop (w h : Rat) (shape : Option ObjectShape) (props : Properties) :
    List RawEvent → Except TiledError (Option ObjectShape × Properties) × List RawEvent
  | [] => (.error .XmlDecodingError, [])
  | .decodeError :: rest => (.error .XmlDecodingError, rest)
  | .endDocument :: rest => (.error (.PrematureEnd "object"), rest)
  | .end_ n :: rest =>
    if n = "object" then (.ok (shape, props), rest) else objectLoop w h shape props rest
  | .other :: rest => objectLoop w h shape props rest
  | .start n a :: rest =>
    if n = "ellipse" then
      objectLoop w h (some (.Ellipse w h)) props rest
    else if n = "polyline" then
      match Object.new_polyline a with
      | .ok s => objectLoop w h (some s) props rest
      | .error e => (.error e, rest)
    else if n = "polygon" then
      match Object.new_polygon a with
      | .ok s => objectLoop w h (some s) props rest
      | .error e => (.error e, rest)
    else if n = "properties" then
      match (parse_properties 0 [] rest).1 with
      | .ok ps => objectLoop w h shape ps (parse_properties 0 [] rest).2
      | .error e => (.error e, (parse_properties 0 [] rest).2)
    else
      match (skipTree 0 rest).1 with
      | .ok _ => objectLoop w h shape props (skipTree 0 rest).2
      | .error e => (.error e, (skipTree 0 rest).2)
termination_by es => es.length
decreasing_by
all_goals simp only [List.length_cons]
all_goals first
| omega
| (have hle := parse_properties_len rest 0 []; omega)
| (have hle := skipTree_len rest 0; omega)

/-- Object::new (object.rs lines 72-140): x and y are required floats, every other
attribute is optional with its default, then the child dispatch loop runs and an
absent shape slot defaults to a rectangle from the object's own width and
height. -/
def Object.new (attrs : List (String × String)) (events : List RawEvent) :
    Except TiledError Object × List RawEvent :=
  match getOpt attrs "x" parseF32, getOpt attrs "y" parseF32 with
  | some x, some y =>
    let w := (getOpt attrs "width" parseF32).getD 0
    let h := (getOpt attrs "height" parseF32).getD 0
    match objectLoop w h none [] events with
    | (.ok (shape, props), rest) =>
      (.ok ⟨(getOpt attrs "id" parseU32).getD 0,
            (getOpt attrs "gid" parseU32).getD 0,
            (getOpt attrs "name" some).getD "",
            (getOpt attrs "type" some).getD "",
            x, y,
            (getOpt attrs "rotation" parseF32).getD 0,
            (getOpt attrs "visible" parseBool).getD true,
            shape.getD (.Rect w h),
            props⟩, rest)
    | (.error e, rest) => (.error e, rest)
  | _, _ => (.error (.MalformedAttributes "objects must have an x and a y number"), events)

theorem objectLoop_len (w h : Rat) : ∀ (sh : Option ObjectShape) (pr : Properties)
    (es : List RawEvent), (objectLoop w h sh pr es).2.length ≤ es.length := by
  intro sh pr es
  induction sh, pr, es using objectLoop.induct
  case w => exact w
  case h => exact h
  all_goals try simp_all [objectLoop]
  all_goals first
  | omega
  | exact le_trans (by assumption) (le_trans (parse_properties_len _ 0 []) (Nat.le_succ _))
  | exact le_trans (by assumption) (le_trans (skipTree_len _ 0) (Nat.le_succ _))
  | exact le_trans (parse_properties_len _ 0 []) (Nat.le_succ _)
  | exact le_trans (skipTree_len _ 0) (Nat.le_succ _)

theorem Object_new_len (attrs : List (String × String)) (es : List RawEvent) :
    (Object.new attrs es).2.length ≤ es.length := by
  unfold Object.new
  cases hx : getOpt attrs "x" parseF32 <;> cases hy : getOpt attrs "y" parseF32 <;> simp
  case some.some x y =>
    have hl := objectLoop_len ((getOpt attrs "width" parseF32).getD 0)
      ((getOpt attrs "height" parseF32).getD 0) none [] es
    rcases hol : objectLoop ((getOpt attrs "width" parseF32).getD 0)
      ((getOpt attrs "height" parseF32).getD 0) none [] es with ⟨res, rest⟩
    rw [hol] at hl
    cases res with
    | ok v => rcases v with ⟨sh, ps⟩; simpa using hl
    | error e => simpa using hl

/-- Colour value (a collaborator primitive outside the shown source). -/
structure Colour where
  val : String
deriving DecidableEq, Repr

/-- Modelled from the spec: the colour primitive coercion collaborator; a failure
is treated as an absent optional. Modelled as accepting six hexadecimal digits. -/
def parseColour (s : String) : Option Colour :=
  if s.length = 6 && s.data.all (fun c =>
      c.isDigit || ('a' ≤ c && c ≤ 'f') || ('A' ≤ c && c ≤ 'F')) then
    some ⟨s⟩
  else none

/-- An object group (the `ObjectGroup` struct in object.rs). -/
structure ObjectGroup where
  name : String
  opacity : Rat
  visible : Bool
  objects : List Object
  colour : Option Colour
deriving DecidableEq, Repr

/-- Tag-dispatch loop of ObjectGroup::new over the group's children (object.rs
lines 34-38; dispatcher behavior modelled from the spec): object children are
decoded in document order, unknown children are skipped wholesale. -/
def objectGroupLoop (objs : List Object) :
    List RawEvent → Except TiledError (List Object) × List RawEvent
  | [] => (.error .XmlDecodingError, [])
  | .decodeError :: rest => (.error .XmlDecodingError, rest)
  | .endDocument :: rest => (.error (.PrematureEnd "objectgroup"), rest)
  | .end_ n :: rest =>
    if n = "objectgroup" then (.ok objs, rest) else objectGroupLoop objs rest
  | .other :: rest => objectGroupLoop objs rest
  | .start n a :: rest =>
    if n = "object" then
      match (Object.new a rest).1 with
      | .ok o => objectGroupLoop (objs ++ [o]) (Object.new a rest).2
      | .error e => (.error e, (Object.new a rest).2)
    else
      match (skipTree 0 rest).1 with
      | .ok _ => objectGroupLoop objs (skipTree 0 rest).2
      | .error e => (.error e, (skipTree 0 rest).2)
termination_by es => es.length
decreasing_by
all_goals simp only [List.length_cons]
all_goals first
| omega
| (have hle := Object_new_len a rest; omega)
| (have hle := skipTree_len rest 0; omega)

/-- ObjectGroup::new (object.rs lines 20-47): every attribute is optional (the
required list is empty), then the object child dispatch loop runs. -/
def ObjectGroup.new (attrs : List (String × String)) (events : List RawEvent) :
    Except TiledError ObjectGroup × List RawEvent :=
  match objectGroupLoop [] events with
  | (.ok objs, rest) =>
    (.ok ⟨(getOpt attrs "name" some).getD "",
          (getOpt attrs "opacity" parseF32).getD 1,
          (getOpt attrs "visible" (fun s => (parseI32 s).map (fun x => x == 1))).getD true,
          objs,
          getOpt attrs "color" parseColour⟩, rest)
  | (.error e, rest) => (.error e, rest)

/-- Image metadata (an out-of-scope collaborator). Modelled from the spec: decoding
is delegated; the record keeps the tag's raw attributes. -/
structure Image where
  attrs : List (String × String)
deriving DecidableEq, Repr

/-- Modelled from the spec: the Image constructor collaborator — consumes its
element's content through the matching end tag and returns the decoded image. -/
def Image.new (a : List (String × String)) (events : List RawEvent) :
    Except TiledError Image × List RawEvent :=
  ((skipTree 0 events).1.map (fun _ => ⟨a⟩), (skipTree 0 events).2)

/-- Tile metadata (an out-of-scope collaborator). Modelled from the spec: decoding
is delegated; the record keeps the tag's raw attributes. -/
structure Tile where
  attrs : List (String × String)
deriving DecidableEq, Repr

/-- Modelled from the spec: the Tile constructor collaborator — consumes its
element's content through the matching end tag and returns the decoded tile. -/
def Tile.new (a : List (String × String)) (events : List RawEvent) :
    Except TiledError Tile × List RawEvent :=
  ((skipTree 0 events).1.map (fun _ => ⟨a⟩), (skipTree 0 events).2)

/-- A tileset (the `Tileset` struct in tileset.rs). -/
structure Tileset where
  first_gid : Nat
  name : String
  tile_width : Nat
  tile_height : Nat
  spacing : Nat
  margin : Nat
  images : List Image
  tiles : List Tile
deriving DecidableEq, Repr

/-- Tag-dispatch loop shared by Tileset::new_internal and
Tileset::parse_external_tileset (tileset.rs lines 51-59 and 135-143; dispatcher
behavior modelled from the spec): image and tile children are collected in document
order, unknown children are skipped wholesale. -/
def tilesetLoop (imgs : List Image) (tls : List Tile) :
    List RawEvent → Except TiledError (List Image × List Tile) × List RawEvent
  | [] => (.error .XmlDecodingError, [])
  | .decodeError :: rest => (.error .XmlDecodingError, rest)
  | .endDocument :: rest => (.error (.PrematureEnd "tileset"), rest)
  | .end_ n :: rest =>
    if n = "tileset" then (.ok (imgs, tls), rest) else tilesetLoop imgs tls rest
  | .other :: rest => tilesetLoop imgs tls rest
  | .start n a :: rest =>
    if n = "image" then
      match (Image.new a rest).1 with
      | .ok img => tilesetLoop (imgs ++ [img]) tls (Image.new a rest).2
      | .error e => (.error e, (Image.new a rest).2)
    else if n = "tile" then
      match (Tile.new a rest).1 with
      | .ok tl => tilesetLoop imgs (tls ++ [tl]) (Tile.new a rest).2
      | .error e => (.error e, (Tile.new a rest).2)
    else
      match (skipTree 0 rest).1 with
      | .ok _ => tilesetLoop imgs tls (skipTree 0 rest).2
      | .error e => (.error e, (skipTree 0 rest).2)
termination_by es => es.length
decreasing_by
all_goals simp only [List.length_cons]
all_goals first
| omega
| (have hle := skipTree_len rest 0
   simp only [Image.new, Tile.new] at *
   omega)

/-- Tileset::new_internal (tileset.rs lines 35-71): the embedded schema — firstgid,
name, tilewidth and tileheight required, spacing and margin optional, then the
image / tile dispatch loop. -/
def Tileset.new_internal (attrs : List (String × String)) (events : List RawEvent) :
    Except TiledError Tileset × List RawEvent :=
  match getOpt attrs "firstgid" parseU32, getAttr attrs "name",
      getOpt attrs "tilewidth" parseU32, getOpt attrs "tileheight" parseU32 with
  | some fg, some nm, some tw, some th =>
    match tilesetLoop [] [] events with
    | (.ok (imgs, tls), rest) =>
      (.ok ⟨fg, nm, tw, th,
            (getOpt attrs "spacing" parseU32).getD 0,
            (getOpt attrs "margin" parseU32).getD 0,
            imgs, tls⟩, rest)
    | (.error e, rest) => (.error e, rest)
  | _, _, _, _ =>
    (.error (.MalformedAttributes
      "tileset must have a firstgid, name tile width and height with correct types"), events)

/-- Filesystem path, modelled as its list of components. -/
abbrev Path := List String

/-- Modelled from the spec: the path resolution collaborator (with_file_name) —
same directory, final component replaced. -/
def withFileName (p : Path) (s : String) : Path :=
  p.dropLast ++ [s]

/-- Modelled from the spec: the filesystem collaborator — a finite map from paths
to the event streams of the documents they hold; opening a path looks it up. -/
abbrev FS := List (Path × List RawEvent)

/-- Opens a path on the modelled filesystem. -/
def openFile (fs : FS) (p : Path) : Option (List RawEvent) :=
  (fs.find? (fun q => q.1 == p)).map (fun q => q.2)

/-- Textual rendering of a path for the not-found error message. -/
def pathRepr (p : Path) : String :=
  p.foldl (fun a c => a ++ "/" ++ c) ""

/-- Tileset::parse_external_tileset (tileset.rs lines 119-155): extraction without
firstgid — the supplied first_gid is injected instead — then the image / tile
dispatch loop. -/
def Tileset.parse_external_tileset (first_gid : Nat) (attrs : List (String × String))
    (events : List RawEvent) : Except TiledError Tileset × List RawEvent :=
  match getAttr attrs "name", getOpt attrs "tilewidth" parseU32,
      getOpt attrs "tileheight" parseU32 with
  | some nm, some tw, some th =>
    match tilesetLoop [] [] events with
    | (.ok (imgs, tls), rest) =>
      (.ok ⟨first_gid, nm, tw, th,
            (getOpt attrs "spacing" parseU32).getD 0,
            (getOpt attrs "margin" parseU32).getD 0,
            imgs, tls⟩, rest)
    | (.error e, rest) => (.error e, rest)
  | _, _, _ =>
    (.error (.MalformedAttributes
      "tileset must have a firstgid, name tile width and height with correct types"), events)

/-- Tileset::new_external (tileset.rs lines 94-117): scan the freshly opened
document for a start tag whose local name is tileset and parse from there; reaching
the end of the document first is a premature end. -/
def Tileset.new_external (first_gid : Nat) :
    List RawEvent → Except TiledError Tileset × List RawEvent
  | [] => (.error .XmlDecodingError, [])
  | .decodeError :: rest => (.error .XmlDecodingError, rest)
  | .endDocument :: rest =>
    (.error (.PrematureEnd "Tileset Document ended before map was parsed"), rest)
  | .start n a :: rest =>
    if n = "tileset" then Tileset.parse_external_tileset first_gid a rest
    else Tileset.new_external first_gid rest
  | .end_ _ :: rest => Tileset.new_external first_gid rest
  | .other :: rest => Tileset.new_external first_gid rest

/-- Tileset::new_reference (tileset.rs lines 73-92): firstgid and source required;
then the enclosing map's path must be known, the sibling path is opened, and the
opened document is parsed as an external tileset. -/
def Tileset.new_reference (attrs : List (String × String)) (map_path : Option Path)
    (fs : FS) : Except TiledError Tileset :=
  match getOpt attrs "firstgid" parseU32, getAttr attrs "source" with
  | some fg, some src =>
    match map_path with
    | none => .error (.Other
        "Maps with external tilesets must know their file location.  See parse_with_path(Path).")
    | some p =>
      match openFile fs (withFileName p src) with
      | none => .error (.Other ("External tileset file not found: " ++ pathRepr (withFileName p src)))
      | some doc => (Tileset.new_external fg doc).1
  | _, _ =>
    .error (.MalformedAttributes
      "tileset must have a firstgid, name tile width and height with correct types")

/-- Tileset::new (tileset.rs lines 27-33): the embedded attempt, or else — its
error discarded — the external-reference attempt on the same attribute list. -/
def Tileset.new (attrs : List (String × String)) (map_path : Option Path) (fs : FS)
    (events : List RawEvent) : Except TiledError Tileset × List RawEvent :=
  match Tileset.new_internal attrs events with
  | (.ok ts, rest) => (.ok ts, rest)
  | (.error _, rest) => (Tileset.new_reference attrs map_path fs, rest)

/-- Well-formed document fragments, used to quantify over the children of a tag:
an element with a name, attributes and child fragments, or ignorable content. -/
inductive XTree where
  | elem (name : String) (attrs : List (String × String)) (children : List XTree)
  | txt
deriving Repr

mutual

/-- Event stream of one well-formed fragment. -/
def XTree.flatten : XTree → List RawEvent
  | .elem n a cs => .start n a :: (XTree.flattenList cs ++ [.end_ n])
  | .txt => [.other]

/-- Event stream of a list of well-formed fragments, in order. -/
def XTree.flattenList : List XTree → List RawEvent
  | [] => []
  | t :: ts => XTree.flatten t ++ XTree.flattenList ts

end

mutual

/-- Size of a fragment, for strong induction. -/
def XTree.size : XTree → Nat
  | .elem _ _ cs => 1 + XTree.sizeList cs
  | .txt => 1

/-- Size of a fragment list, for strong induction. -/
def XTree.sizeList : List XTree → Nat
  | [] => 0
  | t :: ts => XTree.size t + XTree.sizeList ts

end

theorem XTree.size_pos : ∀ t : XTree, 1 ≤ XTree.size t := by
  intro t
  cases t <;> simp [XTree.size]

theorem skipTree_flatten : ∀ (N : Nat) (ts : List XTree), XTree.sizeList ts ≤ N →
    ∀ (d : Nat) (rest : List RawEvent),
    skipTree d (XTree.flattenList ts ++ rest) = skipTree d rest := by
  intro N
  induction N with
  | zero =>
    intro ts h d rest
    cases ts with
    | nil => simp [XTree.flattenList]
    | cons t ts' => exact absurd h (by have := XTree.size_pos t; simp [XTree.sizeList]; omega)
  | succ N ih =>
    intro ts h d rest
    cases ts with
    | nil => simp [XTree.flattenList]
    | cons t ts' =>
      cases t with
      | txt =>
        have hs : XTree.sizeList ts' ≤ N := by
          simp [XTree.sizeList, XTree.size] at h; omega
        simp only [XTree.flattenList, XTree.flatten, List.cons_append, List.nil_append,
          List.append_assoc]
        rw [show skipTree d (.other :: (XTree.flattenList ts' ++ rest)) =
          skipTree d (XTree.flattenList ts' ++ rest) from by simp [skipTree]]
        exact ih ts' hs d rest
      | elem n a cs =>
        have hs1 : XTree.sizeList cs ≤ N := by
          simp [XTree.sizeList, XTree.size] at h; omega
        have hs2 : XTree.sizeList ts' ≤ N := by
          have := XTree.size_pos (.elem n a cs)
          simp [XTree.sizeList] at h ⊢; omega
        simp only [XTree.flattenList, XTree.flatten, List.cons_append, List.append_assoc,
          List.nil_append]
        rw [show skipTree d (.start n a :: (XTree.flattenList cs ++
            (RawEvent.end_ n :: (XTree.flattenList ts' ++ rest)))) =
          skipTree (d + 1) (XTree.flattenList cs ++
            (RawEvent.end_ n :: (XTree.flattenList ts' ++ rest))) from by simp [skipTree]]
        rw [ih cs hs1 (d + 1) _]
        rw [show skipTree (d + 1) (RawEvent.end_ n :: (XTree.flattenList ts' ++ rest)) =
          skipTree d (XTree.flattenList ts' ++ rest) from by simp [skipTree]]
        exact ih ts' hs2 d rest

/-- Property pair contributed by one child fragment of a properties tag. -/
def propOf : XTree → Properties
  | .elem n a _ =>
    if n = "property" then
      match getAttr a "name", getAttr a "value" with
      | some k, some v => [(k, v)]
      | _, _ => []
    else []
  | .txt => []

/-- Property pairs contributed by the children of a properties tag, in order. -/
def propsOf : List XTree → Properties
  | [] => []
  | t :: ts => propOf t ++ propsOf ts

theorem parse_properties_flatten : ∀ (N : Nat) (ts : List XTree), XTree.sizeList ts ≤ N →
    ∀ (d : Nat) (acc : Properties) (rest : List RawEvent),
    parse_properties d acc (XTree.flattenList ts ++ rest) =
      parse_properties d (if d = 0 then acc ++ propsOf ts else acc) rest := by
  intro N
  induction N with
  | zero =>
    intro ts h d acc rest
    cases ts with
    | nil => cases hd : decide (d = 0) <;> simp_all [XTree.flattenList, propsOf]
    | cons t ts' => exact absurd h (by have := XTree.size_pos t; simp [XTree.sizeList]; omega)
  | succ N ih =>
    intro ts h d acc rest
    cases ts with
    | nil => cases hd : decide (d = 0) <;> simp_all [XTree.flattenList, propsOf]
    | cons t ts' =>
      cases t with
      | txt =>
        have hs : XTree.sizeList ts' ≤ N := by
          simp [XTree.sizeList, XTree.size] at h; omega
        simp only [XTree.flattenList, XTree.flatten, List.cons_append, List.nil_append,
          List.append_assoc]
        rw [show parse_properties d acc (.other :: (XTree.flattenList ts' ++ rest)) =
          parse_properties d acc (XTree.flattenList ts' ++ rest) from by simp [parse_properties]]
        rw [ih ts' hs d acc rest]
        simp [propsOf, propOf]
      | elem n a cs =>
        have hs1 : XTree.sizeList cs ≤ N := by
          simp [XTree.sizeList, XTree.size] at h; omega
        have hs2 : XTree.sizeList ts' ≤ N := by
          have := XTree.size_pos (.elem n a cs)
          simp [XTree.sizeList] at h ⊢; omega
        simp only [XTree.flattenList, XTree.flatten, List.cons_append, List.append_assoc,
          List.nil_append]
        rw [show parse_properties d acc (.start n a :: (XTree.flattenList cs ++
            (RawEvent.end_ n :: (XTree.flattenList ts' ++ rest)))) =
          parse_properties (d + 1) (if d = 0 ∧ n = "property" then
              match getAttr a "name", getAttr a "value" with
              | some k, some v => acc ++ [(k, v)]
              | _, _ => acc
            else acc) (XTree.flattenList cs ++
            (RawEvent.end_ n :: (XTree.flattenList ts' ++ rest))) from by
          simp [parse_properties]]
        rw [ih cs hs1 (d + 1) _ _]
        have hd1 : ¬(d + 1 = 0) := by omega
        rw [if_neg hd1]
        rw [show parse_properties (d + 1) (if d = 0 ∧ n = "property" then
              match getAttr a "name", getAttr a "value" with
              | some k, some v => acc ++ [(k, v)]
              | _, _ => acc
            else acc) (RawEvent.end_ n :: (XTree.flattenList ts' ++ rest)) =
          parse_properties d (if d = 0 ∧ n = "property" then
              match getAttr a "name", getAttr a "value" with
              | some k, some v => acc ++ [(k, v)]
              | _, _ => acc
            else acc) (XTree.flattenList ts' ++ rest) from by
          simp [parse_properties, hd1]]
        rw [ih ts' hs2 d _ rest]
        by_cases hd : d = 0
        · by_cases hn : n = "property"
          · simp only [hd, hn, if_pos (And.intro rfl rfl), if_pos rfl, propsOf, propOf, if_pos hn]
            cases getAttr a "name" <;> cases getAttr a "value" <;> simp
          · have : ¬(d = 0 ∧ n = "property") := by simp [hn]
            simp only [if_neg this, if_pos hd, propsOf, propOf, if_neg hn]
            simp
        · have : ¬(d = 0 ∧ n = "property") := by simp [hd]
          simp [if_neg this, if_neg hd]

/-- Shape written into the shape slot by one child fragment of an object tag, if
that child is shape-defining and its handler succeeds. -/
def shapeUpd (w h : Rat) : XTree → Option ObjectShape
  | .elem n a _ =>
    if n = "ellipse" then some (.Ellipse w h)
    else if n = "polyline" then
      match Object.new_polyline a with
      | .ok s => some s
      | .error _ => none
    else if n = "polygon" then
      match Object.new_polygon a with
      | .ok s => some s
      | .error _ => none
    else none
  | .txt => none

/-- Final content of the shape slot after the children are dispatched in document
order: each shape-defining child unconditionally overwrites the slot. -/
def foldShape (w h : Rat) (sh : Option ObjectShape) : List XTree → Option ObjectShape
  | [] => sh
  | t :: ts =>
    foldShape w h (match shapeUpd w h t with
      | some s => some s
      | none => sh) ts

/-- A child fragment the object dispatch loop accepts without error: shape-defining
children are leaf tags and their points decode. -/
def okChildB : XTree → Bool
  | .elem n a cs =>
    (n != "ellipse" || cs.isEmpty) &&
    (n != "polyline" || (cs.isEmpty && isOkE (Object.new_polyline a))) &&
    (n != "polygon" || (cs.isEmpty && isOkE (Object.new_polygon a)))
  | .txt => true

/-- True exactly on the three shape-defining child tags. -/
def isShapeTag : XTree → Bool
  | .elem n _ _ => n == "ellipse" || n == "polyline" || n == "polygon"
  | .txt => false


theorem okChildB_ellipse {a : List (String × String)} {cs : List XTree}
    (hk : okChildB (.elem "ellipse" a cs) = true) : cs = [] := by
  simp [okChildB] at hk
  exact hk

theorem okChildB_polyline {a : List (String × String)} {cs : List XTree}
    (hk : okChildB (.elem "polyline" a cs) = true) :
    cs = [] ∧ isOkE (Object.new_polyline a) = true := by
  simp [okChildB] at hk
  exact hk

theorem okChildB_polygon {a : List (String × String)} {cs : List XTree}
    (hk : okChildB (.elem "polygon" a cs) = true) :
    cs = [] ∧ isOkE (Object.new_polygon a) = true := by
  simp [okChildB] at hk
  exact hk

theorem objectLoop_flatten (w h : Rat) : ∀ (N : Nat) (ts : List XTree),
    XTree.sizeList ts ≤ N → ts.all okChildB = true →
    ∀ (sh : Option ObjectShape) (pr : Properties) (rest : List RawEvent),
    ∃ pr', objectLoop w h sh pr (XTree.flattenList ts ++ .end_ "object" :: rest) =
      (.ok (foldShape w h sh ts, pr'), rest) := by
  intro N
  induction N with
  | zero =>
    intro ts hsz _ sh pr rest
    cases ts with
    | nil => exact ⟨pr, by simp [XTree.flattenList, objectLoop, foldShape]⟩
    | cons t ts' =>
      exact absurd hsz (by have := XTree.size_pos t; simp [XTree.sizeList]; omega)
  | succ N ih =>
    intro ts hsz hok sh pr rest
    cases ts with
    | nil => exact ⟨pr, by simp [XTree.flattenList, objectLoop, foldShape]⟩
    | cons t ts' =>
      rw [List.all_cons, Bool.and_eq_true] at hok
      obtain ⟨hokt, hok'⟩ := hok
      cases t with
      | txt =>
        have hs : XTree.sizeList ts' ≤ N := by
          simp [XTree.sizeList, XTree.size] at hsz; omega
        obtain ⟨pr', hcall⟩ := ih ts' hs hok' sh pr rest
        refine ⟨pr', ?_⟩
        simp only [XTree.flattenList, XTree.flatten, List.cons_append, List.nil_append,
          List.append_assoc, foldShape, shapeUpd]
        rw [show objectLoop w h sh pr (.other :: (XTree.flattenList ts' ++
            (RawEvent.end_ "object" :: rest))) =
          objectLoop w h sh pr (XTree.flattenList ts' ++ (RawEvent.end_ "object" :: rest)) from by
          simp [objectLoop]]
        simpa using hcall
      | elem n a cs =>
        have hs1 : XTree.sizeList cs ≤ N := by
          simp [XTree.sizeList, XTree.size] at hsz; omega
        have hs2 : XTree.sizeList ts' ≤ N := by
          have := XTree.size_pos (.elem n a cs)
          simp [XTree.sizeList] at hsz ⊢; omega
        simp only [XTree.flattenList, XTree.flatten, List.cons_append, List.append_assoc,
          List.nil_append]
        by_cases hn1 : n = "ellipse"
        · subst hn1
          have hcs := okChildB_ellipse hokt
          subst hcs
          obtain ⟨pr', hcall⟩ := ih ts' hs2 hok' (some (.Ellipse w h)) pr rest
          refine ⟨pr', ?_⟩
          simp only [XTree.flattenList, List.nil_append, foldShape, shapeUpd, if_pos rfl]
          rw [show objectLoop w h sh pr (.start "ellipse" a :: (RawEvent.end_ "ellipse" ::
              (XTree.flattenList ts' ++ (RawEvent.end_ "object" :: rest)))) =
            objectLoop w h (some (.Ellipse w h)) pr (RawEvent.end_ "ellipse" ::
              (XTree.flattenList ts' ++ (RawEvent.end_ "object" :: rest))) from by
            simp [objectLoop]]
          rw [show objectLoop w h (some (.Ellipse w h)) pr (RawEvent.end_ "ellipse" ::
              (XTree.flattenList ts' ++ (RawEvent.end_ "object" :: rest))) =
            objectLoop w h (some (.Ellipse w h)) pr
              (XTree.flattenList ts' ++ (RawEvent.end_ "object" :: rest)) from by
            simp [objectLoop]]
          exact hcall
        · by_cases hn2 : n = "polyline"
          · subst hn2
            obtain ⟨hcs, hokk⟩ := okChildB_polyline hokt
            subst hcs
            rcases hpl : Object.new_polyline a with e | s
            · rw [hpl] at hokk; simp [isOkE] at hokk
            · obtain ⟨pr', hcall⟩ := ih ts' hs2 hok' (some s) pr rest
              refine ⟨pr', ?_⟩
              simp only [XTree.flattenList, List.nil_append, foldShape, shapeUpd, hpl]
              rw [show objectLoop w h sh pr (.start "polyline" a :: (RawEvent.end_ "polyline" ::
                  (XTree.flattenList ts' ++ (RawEvent.end_ "object" :: rest)))) =
                objectLoop w h (some s) pr (RawEvent.end_ "polyline" ::
                  (XTree.flattenList ts' ++ (RawEvent.end_ "object" :: rest))) from by
                simp [objectLoop, hpl]]
              rw [show objectLoop w h (some s) pr (RawEvent.end_ "polyline" ::
                  (XTree.flattenList ts' ++ (RawEvent.end_ "object" :: rest))) =
                objectLoop w h (some s) pr
                  (XTree.flattenList ts' ++ (RawEvent.end_ "object" :: rest)) from by
                simp [objectLoop]]
              simpa using hcall
          · by_cases hn3 : n = "polygon"
            · subst hn3
              obtain ⟨hcs, hokk⟩ := okChildB_polygon hokt
              subst hcs
              rcases hpl : Object.new_polygon a with e | s
              · rw [hpl] at hokk; simp [isOkE] at hokk
              · obtain ⟨pr', hcall⟩ := ih ts' hs2 hok' (some s) pr rest
                refine ⟨pr', ?_⟩
                simp only [XTree.flattenList, List.nil_append, foldShape, shapeUpd, hpl]
                rw [show objectLoop w h sh pr (.start "polygon" a :: (RawEvent.end_ "polygon" ::
                    (XTree.flattenList ts' ++ (RawEvent.end_ "object" :: rest)))) =
                  objectLoop w h (some s) pr (RawEvent.end_ "polygon" ::
                    (XTree.flattenList ts' ++ (RawEvent.end_ "object" :: rest))) from by
                  simp [objectLoop, hpl]]
                rw [show objectLoop w h (some s) pr (RawEvent.end_ "polygon" ::
                    (XTree.flattenList ts' ++ (RawEvent.end_ "object" :: rest))) =
                  objectLoop w h (some s) pr
                    (XTree.flattenList ts' ++ (RawEvent.end_ "object" :: rest)) from by
                  simp [objectLoop]]
                simpa using hcall
            · by_cases hn4 : n = "properties"
              · subst hn4
                have hpp : parse_properties 0 [] (XTree.flattenList cs ++
                    (RawEvent.end_ "properties" ::
                      (XTree.flattenList ts' ++ (RawEvent.end_ "object" :: rest)))) =
                    (.ok (propsOf cs),
                      XTree.flattenList ts' ++ (RawEvent.end_ "object" :: rest)) := by
                  rw [parse_properties_flatten (XTree.sizeList cs) cs le_rfl 0 []]
                  simp [parse_properties]
                obtain ⟨pr', hcall⟩ := ih ts' hs2 hok' sh (propsOf cs) rest
                refine ⟨pr', ?_⟩
                rw [show objectLoop w h sh pr (.start "properties" a :: (XTree.flattenList cs ++
                    (RawEvent.end_ "properties" ::
                      (XTree.flattenList ts' ++ (RawEvent.end_ "object" :: rest))))) =
                  objectLoop w h sh (propsOf cs)
                    (XTree.flattenList ts' ++ (RawEvent.end_ "object" :: rest)) from by
                  simp [objectLoop, hpp]]
                rw [hcall]
                simp [foldShape, shapeUpd, hn1, hn2, hn3]
              · have hsk : skipTree 0 (XTree.flattenList cs ++ (RawEvent.end_ n ::
                    (XTree.flattenList ts' ++ (RawEvent.end_ "object" :: rest)))) =
                    (.ok (), XTree.flattenList ts' ++ (RawEvent.end_ "object" :: rest)) := by
                  rw [skipTree_flatten (XTree.sizeList cs) cs le_rfl 0]
                  simp [skipTree]
                obtain ⟨pr', hcall⟩ := ih ts' hs2 hok' sh pr rest
                refine ⟨pr', ?_⟩
                rw [show objectLoop w h sh pr (.start n a :: (XTree.flattenList cs ++
                    (RawEvent.end_ n ::
                      (XTree.flattenList ts' ++ (RawEvent.end_ "object" :: rest))))) =
                  objectLoop w h sh pr
                    (XTree.flattenList ts' ++ (RawEvent.end_ "object" :: rest)) from by
                  simp [objectLoop, hn1, hn2, hn3, hn4, hsk]]
                rw [hcall]
                simp [foldShape, shapeUpd, hn1, hn2, hn3, hn4]

theorem isShapeTag_shapeUpd {t : XTree} (hst : isShapeTag t = false) (w h : Rat) :
    shapeUpd w h t = none := by
  cases t with
  | txt => rfl
  | elem n a cs =>
    simp [isShapeTag] at hst
    obtain ⟨⟨h1, h2⟩, h3⟩ := hst
    simp [shapeUpd, h1, h2, h3]

theorem isShapeTag_okChildB {t : XTree} (hst : isShapeTag t = false) : okChildB t = true := by
  cases t with
  | txt => rfl
  | elem n a cs =>
    simp [isShapeTag] at hst
    obtain ⟨⟨h1, h2⟩, h3⟩ := hst
    simp [okChildB, h1, h2, h3]

theorem foldShape_of_none (w h : Rat) : ∀ (ts : List XTree) (sh : Option ObjectShape),
    (∀ t ∈ ts, shapeUpd w h t = none) → foldShape w h sh ts = sh := by
  intro ts
  induction ts with
  | nil => intro sh _; rfl
  | cons t ts' ih =>
    intro sh hn
    have ht := hn t (by simp)
    simp only [foldShape, ht]
    exact ih sh (fun u hu => hn u (by simp [hu]))

theorem foldShape_append (w h : Rat) : ∀ (ts₁ ts₂ : List XTree) (sh : Option ObjectShape),
    foldShape w h sh (ts₁ ++ ts₂) = foldShape w h (foldShape w h sh ts₁) ts₂ := by
  intro ts₁
  induction ts₁ with
  | nil => intro ts₂ sh; rfl
  | cons t ts' ih => intro ts₂ sh; simp only [List.cons_append, foldShape]; exact ih ts₂ _

/-- An event the external-tileset scan of Tileset::new_external passes over. -/
def neutralEvent : RawEvent → Bool
  | .start n _ => n != "tileset"
  | .end_ _ => true
  | .endDocument => false
  | .other => true
  | .decodeError => false

theorem new_external_ok : ∀ (es : List RawEvent) (fg : Nat) (ts : Tileset)
    (rest : List RawEvent), Tileset.new_external fg es = (.ok ts, rest) →
    ∃ pre a tail, es = pre ++ .start "tileset" a :: tail ∧
      Tileset.parse_external_tileset fg a tail = (.ok ts, rest) := by
  intro es
  induction es with
  | nil => intro fg ts rest hr; simp [Tileset.new_external] at hr
  | cons e rest' ih =>
    intro fg ts rest hr
    cases e with
    | start n a =>
      by_cases hn : n = "tileset"
      · subst hn
        rw [show Tileset.new_external fg (.start "tileset" a :: rest') =
          Tileset.parse_external_tileset fg a rest' from by simp [Tileset.new_external]] at hr
        exact ⟨[], a, rest', by simp, hr⟩
      · rw [show Tileset.new_external fg (.start n a :: rest') =
          Tileset.new_external fg rest' from by simp [Tileset.new_external, hn]] at hr
        obtain ⟨pre, a', tail, heq, hp⟩ := ih fg ts rest hr
        exact ⟨.start n a :: pre, a', tail, by simp [heq], hp⟩
    | end_ m =>
      rw [show Tileset.new_external fg (.end_ m :: rest') =
        Tileset.new_external fg rest' from by simp [Tileset.new_external]] at hr
      obtain ⟨pre, a', tail, heq, hp⟩ := ih fg ts rest hr
      exact ⟨.end_ m :: pre, a', tail, by simp [heq], hp⟩
    | other =>
      rw [show Tileset.new_external fg (.other :: rest') =
        Tileset.new_external fg rest' from by simp [Tileset.new_external]] at hr
      obtain ⟨pre, a', tail, heq, hp⟩ := ih fg ts rest hr
      exact ⟨.other :: pre, a', tail, by simp [heq], hp⟩
    | endDocument => simp [Tileset.new_external] at hr
    | decodeError => simp [Tileset.new_external] at hr

theorem parse_external_fields {fg : Nat} {a : List (String × String)} {es rest : List RawEvent}
    {ts : Tileset} (hr : Tileset.parse_external_tileset fg a es = (.ok ts, rest)) :
    ts.first_gid = fg ∧
    getAttr a "name" = some ts.name ∧
    getOpt a "tilewidth" parseU32 = some ts.tile_width ∧
    getOpt a "tileheight" parseU32 = some ts.tile_height ∧
    ts.spacing = (getOpt a "spacing" parseU32).getD 0 ∧
    ts.margin = (getOpt a "margin" parseU32).getD 0 := by
  unfold Tileset.parse_external_tileset at hr
  rcases hnm : getAttr a "name" with _ | nm <;> rw [hnm] at hr
  · simp at hr
  rcases htw : getOpt a "tilewidth" parseU32 with _ | tw <;> rw [htw] at hr
  · simp at hr
  rcases hth : getOpt a "tileheight" parseU32 with _ | th <;> rw [hth] at hr
  · simp at hr
  rcases hloop : tilesetLoop [] [] es with ⟨res, rest'⟩
  rw [hloop] at hr
  cases res with
  | error e => simp at hr
  | ok v =>
    rcases v with ⟨imgs, tls⟩
    simp at hr
    obtain ⟨hts, _⟩ := hr
    subst hts
    simp

/-- Error messages the object decoder can produce in a malformed-attributes
error. -/
def objMsgList : List String :=
  ["objects must have an x and a y number",
   "A polyline must have points",
   "A polygon must have points",
   "one of a polyline's points does not have an x and y coordinate",
   "one of polyline's points does not have i32eger coordinates"]

/-- Shape of every error the object decoder can produce: a cursor decoding error,
a premature end, or a malformed-attributes error with an object-level message. -/
def objectErrShape : TiledError → Bool
  | .XmlDecodingError => true
  | .PrematureEnd _ => true
  | .MalformedAttributes m => objMsgList.contains m
  | .Other _ => false

theorem skipTree_errShape : ∀ (es : List RawEvent) (d : Nat) {e : TiledError},
    (skipTree d es).1 = .error e → objectErrShape e = true := by
  intro es
  induction es with
  | nil => intro d e he; simp [skipTree] at he; subst he; rfl
  | cons ev rest ih =>
    intro d e he
    cases ev with
    | start n a => exact ih (d + 1) (by simpa [skipTree] using he)
    | end_ n =>
      by_cases hd : d = 0
      · simp [skipTree, hd] at he
      · exact ih (d - 1) (by simpa [skipTree, hd] using he)
    | endDocument => simp [skipTree] at he; subst he; rfl
    | other => exact ih d (by simpa [skipTree] using he)
    | decodeError => simp [skipTree] at he; subst he; rfl

theorem parse_properties_errShape : ∀ (es : List RawEvent) (d : Nat) (acc : Properties)
    {e : TiledError}, (parse_properties d acc es).1 = .error e → objectErrShape e = true := by
  intro es
  induction es with
  | nil => intro d acc e he; simp [parse_properties] at he; subst he; rfl
  | cons ev rest ih =>
    intro d acc e he
    cases ev with
    | start n a => exact ih (d + 1) _ (by simpa [parse_properties] using he)
    | end_ n =>
      by_cases hd : d = 0
      · simp [parse_properties, hd] at he
      · exact ih (d - 1) acc (by simpa [parse_properties, hd] using he)
    | endDocument => simp [parse_properties] at he; subst he; rfl
    | other => exact ih d acc (by simpa [parse_properties] using he)
    | decodeError => simp [parse_properties] at he; subst he; rfl

theorem parsePointsGo_errShape : ∀ (ps : List (List Char)) {e : TiledError},
    parsePointsGo ps = .error e → objectErrShape e = true := by
  intro ps
  induction ps with
  | nil => intro e he; simp [parsePointsGo] at he
  | cons p ps' ih =>
    intro e he
    rcases hsp : splitOnChar ',' p with _ | ⟨x, _ | ⟨y, _ | _⟩⟩ <;>
      simp only [parsePointsGo, hsp] at he
    · simp at he; subst he; rfl
    · simp at he; subst he; rfl
    · rcases hx : parseF32L x with _ | vx <;> rw [hx] at he
      · simp at he; subst he; rfl
      rcases hy : parseF32L y with _ | vy <;> rw [hy] at he
      · simp at he; subst he; rfl
      rcases hgo : parsePointsGo ps' with e' | pts <;> rw [hgo] at he
      · simp at he; subst he; exact ih hgo
      · simp at he
    · simp at he; subst he; rfl

theorem new_polyline_errShape {a : List (String × String)} {e : TiledError}
    (he : Object.new_polyline a = .error e) : objectErrShape e = true := by
  unfold Object.new_polyline at he
  rcases hp : getAttr a "points" with _ | s <;> simp only [hp] at he
  · simp at he; subst he; rfl
  · rcases hpp : parse_points s with e' | pts <;> simp only [hpp] at he
    · simp at he; subst he; exact parsePointsGo_errShape _ hpp
    · simp at he

theorem new_polygon_errShape {a : List (String × String)} {e : TiledError}
    (he : Object.new_polygon a = .error e) : objectErrShape e = true := by
  unfold Object.new_polygon at he
  rcases hp : getAttr a "points" with _ | s <;> simp only [hp] at he
  · simp at he; subst he; rfl
  · rcases hpp : parse_points s with e' | pts <;> simp only [hpp] at he
    · simp at he; subst he; exact parsePointsGo_errShape _ hpp
    · simp at he

theorem objectLoop_errShape (w h : Rat) : ∀ (sh : Option ObjectShape) (pr : Properties)
    (es : List RawEvent) (e : TiledError), (objectLoop w h sh pr es).1 = .error e →
    objectErrShape e = true := by
  intro sh pr es
  induction sh, pr, es using objectLoop.induct
  case w => exact w
  case h => exact h
  all_goals intro e he
  all_goals simp_all [objectLoop]
  all_goals first
  | rfl
  | (subst he; rfl)
  | (subst he; exact new_polyline_errShape (by assumption))
  | (subst he; exact new_polygon_errShape (by assumption))
  | (subst he; exact parse_properties_errShape _ 0 [] (by assumption))
  | (subst he; exact skipTree_errShape _ 0 (by assumption))

theorem Object_new_errShape {attrs : List (String × String)} {es : List RawEvent}
    {e : TiledError} (he : (Object.new attrs es).1 = .error e) : objectErrShape e = true := by
  unfold Object.new at he
  rcases hx : getOpt attrs "x" parseF32 with _ | x <;>
    rcases hy : getOpt attrs "y" parseF32 with _ | y <;>
    simp only [hx, hy] at he
  · simp at he; subst he; rfl
  · simp at he; subst he; rfl
  · simp at he; subst he; rfl
  · rcases hloop : objectLoop ((getOpt attrs "width" parseF32).getD 0)
        ((getOpt attrs "height" parseF32).getD 0) none [] es with ⟨res, rest⟩
    simp only [hloop] at he
    cases res with
    | ok v => rcases v with ⟨shv, psv⟩; simp at he
    | error e' =>
      simp at he
      subst he
      exact objectLoop_errShape _ _ none [] es e' (by rw [hloop])

theorem skipTree_err : ∀ (es : List RawEvent) (d : Nat) {e : TiledError},
    (skipTree d es).1 = .error e → e = .XmlDecodingError ∨ ∃ m, e = .PrematureEnd m := by
  intro es
  induction es with
  | nil => intro d e he; simp [skipTree] at he; subst he; simp
  | cons ev rest ih =>
    intro d e he
    cases ev with
    | start n a => exact ih (d + 1) (by simpa [skipTree] using he)
    | end_ n =>
      by_cases hd : d = 0
      · simp [skipTree, hd] at he
      · exact ih (d - 1) (by simpa [skipTree, hd] using he)
    | endDocument => simp [skipTree] at he; subst he; simp
    | other => exact ih d (by simpa [skipTree] using he)
    | decodeError => simp [skipTree] at he; subst he; simp

theorem objectGroupLoop_err : ∀ (objs : List Object) (es : List RawEvent) (e : TiledError),
    (objectGroupLoop objs es).1 = .error e →
    e = .XmlDecodingError ∨ (∃ m, e = .PrematureEnd m) ∨
      ∃ oa oes, (Object.new oa oes).1 = .error e := by
  intro objs es
  induction objs, es using objectGroupLoop.induct
  all_goals intro e he
  all_goals simp_all [objectGroupLoop]
  all_goals first
  | (subst he; simp)
  | solve_by_elim
  | (subst he
     refine Or.inr (Or.inr ?_)
     exact ⟨_, _, by assumption⟩)
  | (rcases skipTree_err _ 0 (by assumption) with h1 | ⟨m, h2⟩ <;> simp_all)

/-- Specification vocabulary for one points chunk: a chunk decodes exactly when it
splits on commas into two components that both parse as floats. -/
def decodeChunk (c : List Char) : Option (Rat × Rat) :=
  match splitOnChar ',' c with
  | [a, b] =>
    match parseF32L a, parseF32L b with
    | some x, some y => some (x, y)
    | _, _ => none
  | _ => none

theorem mapM_decodeChunk_length : ∀ (cs : List (List Char)) (pts : List (Rat × Rat)),
    cs.mapM decodeChunk = some pts → pts.length = cs.length := by
  intro cs
  induction cs with
  | nil => intro pts hm; rw [List.mapM_nil] at hm; simp at hm; subst hm; rfl
  | cons c cs' ih =>
    intro pts hm
    rw [List.mapM_cons] at hm
    rcases hd : decodeChunk c with _ | v <;> rw [hd] at hm
    · simp at hm
    rcases hm2 : cs'.mapM decodeChunk with _ | pts' <;> rw [hm2] at hm
    · simp at hm
    simp at hm
    subst hm
    simp [ih pts' hm2]

theorem parsePointsGo_mapM_some : ∀ (cs : List (List Char)) (pts : List (Rat × Rat)),
    cs.mapM decodeChunk = some pts → parsePointsGo cs = .ok pts := by
  intro cs
  induction cs with
  | nil => intro pts hm; rw [List.mapM_nil] at hm; simp at hm; subst hm; rfl
  | cons c cs' ih =>
    intro pts hm
    rw [List.mapM_cons] at hm
    rcases hd : decodeChunk c with _ | ⟨x, y⟩ <;> rw [hd] at hm
    · simp at hm
    rcases hm2 : cs'.mapM decodeChunk with _ | pts' <;> rw [hm2] at hm
    · simp at hm
    simp at hm
    subst hm
    unfold decodeChunk at hd
    rcases hsp : splitOnChar ',' c with _ | ⟨a, _ | ⟨b, _ | _⟩⟩ <;> simp only [hsp] at hd
    · simp at hd
    · simp at hd
    · rcases hxa : parseF32L a with _ | vx <;> rw [hxa] at hd
      · simp at hd
      rcases hxb : parseF32L b with _ | vy <;> rw [hxb] at hd
      · simp at hd
      simp at hd
      obtain ⟨hx1, hy1⟩ := hd
      subst hx1
      subst hy1
      simp only [parsePointsGo, hsp, hxa, hxb, ih pts' hm2]
    · simp at hd

theorem parsePointsGo_mapM_none : ∀ (cs : List (List Char)),
    cs.mapM decodeChunk = none →
    ∃ m, parsePointsGo cs = .error (.MalformedAttributes m) := by
  intro cs
  induction cs with
  | nil => intro hm; rw [List.mapM_nil] at hm; simp at hm
  | cons c cs' ih =>
    intro hm
    rw [List.mapM_cons] at hm
    rcases hd : decodeChunk c with _ | ⟨x, y⟩ <;> rw [hd] at hm
    · unfold decodeChunk at hd
      rcases hsp : splitOnChar ',' c with _ | ⟨a, _ | ⟨b, _ | _⟩⟩ <;> simp only [hsp] at hd
      · exact ⟨"one of a polyline's points does not have an x and y coordinate", by simp only [parsePointsGo, hsp]⟩
      · exact ⟨"one of a polyline's points does not have an x and y coordinate", by simp only [parsePointsGo, hsp]⟩
      · rcases hxa : parseF32L a with _ | vx <;> rw [hxa] at hd
        · exact ⟨"one of polyline's points does not have i32eger coordinates", by simp only [parsePointsGo, hsp, hxa]⟩
        rcases hxb : parseF32L b with _ | vy <;> rw [hxb] at hd
        · exact ⟨"one of polyline's points does not have i32eger coordinates", by simp only [parsePointsGo, hsp, hxa, hxb]⟩
        simp at hd
      · exact ⟨"one of a polyline's points does not have an x and y coordinate", by simp only [parsePointsGo, hsp]⟩
    · have hm2 : cs'.mapM decodeChunk = none := by
        rcases hm2 : cs'.mapM decodeChunk with _ | pts'
        · rfl
        · rw [hm2] at hm
          exact absurd hm (by simp)
      obtain ⟨m, hgo⟩ := ih hm2
      refine ⟨m, ?_⟩
      unfold decodeChunk at hd
      rcases hsp : splitOnChar ',' c with _ | ⟨a, _ | ⟨b, _ | _⟩⟩ <;> simp only [hsp] at hd
      · simp at hd
      · simp at hd
      · rcases hxa : parseF32L a with _ | vx <;> rw [hxa] at hd
        · simp at hd
        rcases hxb : parseF32L b with _ | vy <;> rw [hxb] at hd
        · simp at hd
        simp only [parsePointsGo, hsp, hxa, hxb, hgo]
      · simp at hd

/-- C1: Tileset resolution first attempts the embedded schema; whenever the
embedded attempt (Tileset::new_internal) fails, the external-reference attempt
(Tileset::new_reference) is tried with the same attribute list, the embedded
attempt's error is discarded, and if the external-reference attempt also fails its
error (not the embedded one) is the final result of Tileset::new. -/
theorem c1_tileset_new_fallback : ∀ (attrs : List (String × String))
    (events : List RawEvent) (mp : Option Path) (fs : FS) (e : TiledError),
    (Tileset.new_internal attrs events).1 = .error e →
    (Tileset.new attrs mp fs events).1 = Tileset.new_reference attrs mp fs ∧
    ∀ e₂, Tileset.new_reference attrs mp fs = .error e₂ →
      (Tileset.new attrs mp fs events).1 = .error e₂ := by
  intro attrs events mp fs e he
  rcases hint : Tileset.new_internal attrs events with ⟨res, rest⟩
  rw [hint] at he
  cases res with
  | ok ts => simp at he
  | error e' =>
    constructor
    · unfold Tileset.new
      rw [hint]
    · intro e₂ h₂
      unfold Tileset.new
      rw [hint, h₂]

/-- Witness for C1 at a concrete input: the empty attribute list fails the embedded
schema, and Tileset::new returns exactly the external-reference attempt's result. -/
theorem c1_witness :
    (Tileset.new_internal [] []).1 = .error (.MalformedAttributes
      "tileset must have a firstgid, name tile width and height with correct types") ∧
    (Tileset.new [] none [] []).1 = Tileset.new_reference [] none [] :=
  ⟨by decide, (c1_tileset_new_fallback [] [] none []
    (.MalformedAttributes
      "tileset must have a firstgid, name tile width and height with correct types")
    (by decide)).1⟩

/-- C3: with a parseable firstgid and a source attribute but no known map path,
Tileset::new_reference fails with the "must know file location" error, and its
result never depends on the filesystem (no open is performed). -/
theorem c3_reference_needs_map_path :
    (∀ (attrs : List (String × String)) (fs : FS) (fg : Nat) (src : String),
      getOpt attrs "firstgid" parseU32 = some fg →
      getAttr attrs "source" = some src →
      Tileset.new_reference attrs none fs = .error (.Other
        "Maps with external tilesets must know their file location.  See parse_with_path(Path).")) ∧
    ∀ (attrs : List (String × String)) (fs fs' : FS),
      Tileset.new_reference attrs none fs = Tileset.new_reference attrs none fs' := by
  constructor
  · intro attrs fs fg src h1 h2
    unfold Tileset.new_reference
    rw [h1, h2]
  · intro attrs fs fs'
    unfold Tileset.new_reference
    rcases getOpt attrs "firstgid" parseU32 with _ | fg <;>
      rcases getAttr attrs "source" with _ | src <;> rfl

/-- Witness for C3 at a concrete input. -/
theorem c3_witness :
    getOpt [("firstgid", "1"), ("source", "x.tsx")] "firstgid" parseU32 = some 1 ∧
    getAttr [("firstgid", "1"), ("source", "x.tsx")] "source" = some "x.tsx" ∧
    Tileset.new_reference [("firstgid", "1"), ("source", "x.tsx")] none [] = .error (.Other
      "Maps with external tilesets must know their file location.  See parse_with_path(Path).") :=
  ⟨by decide, by decide,
    c3_reference_needs_map_path.1 [("firstgid", "1"), ("source", "x.tsx")] [] 1 "x.tsx"
      (by decide) (by decide)⟩

/-- C4: a points string whose space-separated chunks each split on commas into
exactly two parseable float components decodes to exactly that many pairs in string
order; a string with any malformed chunk yields a malformed-attributes error and no
point list. -/
theorem c4_parse_points : ∀ (s : String),
    (∀ pts, (splitOnChar ' ' s.data).mapM decodeChunk = some pts →
      parse_points s = .ok pts ∧ pts.length = (splitOnChar ' ' s.data).length) ∧
    ((splitOnChar ' ' s.data).mapM decodeChunk = none →
      ∃ m, parse_points s = .error (.MalformedAttributes m) ∧
        ∀ pts, parse_points s ≠ .ok pts) := by
  intro s
  constructor
  · intro pts hm
    exact ⟨parsePointsGo_mapM_some _ pts hm, mapM_decodeChunk_length _ pts hm⟩
  · intro hm
    obtain ⟨m, hgo⟩ := parsePointsGo_mapM_none _ hm
    exact ⟨m, hgo, fun pts hok => by rw [show parse_points s = parsePointsGo
      (splitOnChar ' ' s.data) from rfl, hgo] at hok; exact Except.noConfusion hok⟩

/-- Witness for C4 at a concrete input: a two-pair points string decodes to its two
pairs in order. -/
theorem c4_witness :
    (splitOnChar ' ' "1,2 3,4".data).mapM decodeChunk = some [(1, 2), (3, 4)] ∧
    parse_points "1,2 3,4" = .ok [(1, 2), (3, 4)] ∧
    ([((1 : Rat), (2 : Rat)), (3, 4)]).length = (splitOnChar ' ' "1,2 3,4".data).length :=
  ⟨by decide, ((c4_parse_points "1,2 3,4").1 [(1, 2), (3, 4)] (by decide)).1,
    ((c4_parse_points "1,2 3,4").1 [(1, 2), (3, 4)] (by decide)).2⟩

/-- C5: an object attribute list lacking a parseable x or lacking a parseable y
fails construction with the malformed-attributes error, whatever the other
attributes and the children are. -/
theorem c5_object_requires_xy :
    ∀ (attrs : List (String × String)) (events : List RawEvent),
    getOpt attrs "x" parseF32 = none ∨ getOpt attrs "y" parseF32 = none →
    Object.new attrs events =
      (.error (.MalformedAttributes "objects must have an x and a y number"), events) := by
  intro attrs events hxy
  rcases hx : getOpt attrs "x" parseF32 with _ | x
  · simp [Object.new, hx]
  · rcases hy : getOpt attrs "y" parseF32 with _ | y
    · simp [Object.new, hx, hy]
    · rw [hx, hy] at hxy
      rcases hxy with hc | hc <;> exact Option.noConfusion hc

/-- Witness for C5 at a concrete input: y present and parseable, x absent. -/
theorem c5_witness :
    (getOpt [("y", "1")] "x" parseF32 = none ∨ getOpt [("y", "1")] "y" parseF32 = none) ∧
    Object.new [("y", "1")] [] =
      (.error (.MalformedAttributes "objects must have an x and a y number"), []) :=
  ⟨Or.inl (by decide), c5_object_requires_xy [("y", "1")] [] (Or.inl (by decide))⟩

/-- C6: an object tag whose children include no ellipse, polyline or polygon child
yields a shape equal to Rect of the object tag's own width and height attributes,
each defaulting to 0 when absent or unparseable. -/
theorem c6_default_rect_shape :
    ∀ (attrs : List (String × String)) (ts : List XTree) (rest : List RawEvent) (x y : Rat),
    getOpt attrs "x" parseF32 = some x →
    getOpt attrs "y" parseF32 = some y →
    ts.all (fun t => !isShapeTag t) = true →
    ∃ obj, Object.new attrs (XTree.flattenList ts ++ .end_ "object" :: rest) = (.ok obj, rest) ∧
      obj.shape = .Rect ((getOpt attrs "width" parseF32).getD 0)
        ((getOpt attrs "height" parseF32).getD 0) := by
  intro attrs ts rest x y hx hy hns
  have hok : ts.all okChildB = true := by
    rw [List.all_eq_true] at hns ⊢
    intro t ht
    exact isShapeTag_okChildB (by simpa using hns t ht)
  obtain ⟨pr', hloop⟩ := objectLoop_flatten ((getOpt attrs "width" parseF32).getD 0)
    ((getOpt attrs "height" parseF32).getD 0) (XTree.sizeList ts) ts le_rfl hok none [] rest
  have hfold : foldShape ((getOpt attrs "width" parseF32).getD 0)
      ((getOpt attrs "height" parseF32).getD 0) none ts = none := by
    apply foldShape_of_none
    intro t ht
    rw [List.all_eq_true] at hns
    exact isShapeTag_shapeUpd (by simpa using hns t ht) _ _
  rw [hfold] at hloop
  refine ⟨⟨(getOpt attrs "id" parseU32).getD 0, (getOpt attrs "gid" parseU32).getD 0,
    (getOpt attrs "name" some).getD "", (getOpt attrs "type" some).getD "", x, y,
    (getOpt attrs "rotation" parseF32).getD 0, (getOpt attrs "visible" parseBool).getD true,
    .Rect ((getOpt attrs "width" parseF32).getD 0) ((getOpt attrs "height" parseF32).getD 0),
    pr'⟩, ?_, rfl⟩
  simp only [Object.new, hx, hy, hloop]
  simp

/-- Witness for C6 at a concrete input: no children at all gives the Rect default
with width and height 0. -/
theorem c6_witness :
    getOpt [("x", "1"), ("y", "2")] "x" parseF32 = some 1 ∧
    getOpt [("x", "1"), ("y", "2")] "y" parseF32 = some 2 ∧
    ([] : List XTree).all (fun t => !isShapeTag t) = true ∧
    ∃ obj, Object.new [("x", "1"), ("y", "2")]
        (XTree.flattenList [] ++ .end_ "object" :: []) = (.ok obj, []) ∧
      obj.shape = .Rect ((getOpt [("x", "1"), ("y", "2")] "width" parseF32).getD 0)
        ((getOpt [("x", "1"), ("y", "2")] "height" parseF32).getD 0) :=
  ⟨by decide, by decide, by decide,
    c6_default_rect_shape [("x", "1"), ("y", "2")] [] [] 1 2 (by decide) (by decide) (by decide)⟩

/-- C7: Tileset::new_external advances the fresh document's cursor skipping every
event until a start tag named tileset, then parses from there; reaching the end of
the document first gives the PrematureEnd error. -/
theorem c7_external_scan :
    ∀ (fg : Nat) (pre : List RawEvent), pre.all neutralEvent = true →
    (∀ (a : List (String × String)) (tail : List RawEvent),
      Tileset.new_external fg (pre ++ .start "tileset" a :: tail) =
        Tileset.parse_external_tileset fg a tail) ∧
    ∀ (tail : List RawEvent),
      Tileset.new_external fg (pre ++ .endDocument :: tail) =
        (.error (.PrematureEnd "Tileset Document ended before map was parsed"), tail) := by
  intro fg pre
  induction pre with
  | nil =>
    intro _
    exact ⟨fun a tail => by simp [Tileset.new_external], fun tail => by
      simp [Tileset.new_external]⟩
  | cons e pre' ih =>
    intro hall
    rw [List.all_cons, Bool.and_eq_true] at hall
    obtain ⟨he, hall'⟩ := hall
    obtain ⟨ih1, ih2⟩ := ih hall'
    cases e with
    | start n a' =>
      have hn : ¬n = "tileset" := by simpa [neutralEvent] using he
      exact ⟨fun a tail => by
          simpa [Tileset.new_external, hn] using ih1 a tail,
        fun tail => by simpa [Tileset.new_external, hn] using ih2 tail⟩
    | end_ m =>
      exact ⟨fun a tail => by simpa [Tileset.new_external] using ih1 a tail,
        fun tail => by simpa [Tileset.new_external] using ih2 tail⟩
    | other =>
      exact ⟨fun a tail => by simpa [Tileset.new_external] using ih1 a tail,
        fun tail => by simpa [Tileset.new_external] using ih2 tail⟩
    | endDocument => simp [neutralEvent] at he
    | decodeError => simp [neutralEvent] at he

/-- Witness for C7 at a concrete input: one skippable event before the tileset
start tag, and one before the end of the document. -/
theorem c7_witness :
    ([RawEvent.other].all neutralEvent = true) ∧
    Tileset.new_external 0 ([RawEvent.other] ++ .start "tileset" [] :: []) =
      Tileset.parse_external_tileset 0 [] [] ∧
    Tileset.new_external 0 ([RawEvent.other] ++ .endDocument :: []) =
      (.error (.PrematureEnd "Tileset Document ended before map was parsed"), []) :=
  ⟨by decide, (c7_external_scan 0 [RawEvent.other] (by decide)).1 [] [],
    (c7_external_scan 0 [RawEvent.other] (by decide)).2 []⟩

/-- C8: when an object tag has several shape-defining children, the decoded shape
is the one of the last such child in document order — every shape handler
unconditionally overwrites the shape slot. -/
theorem c8_last_shape_wins :
    ∀ (attrs : List (String × String)) (ts₁ ts₂ : List XTree) (t : XTree)
      (rest : List RawEvent) (x y : Rat) (s : ObjectShape),
    getOpt attrs "x" parseF32 = some x →
    getOpt attrs "y" parseF32 = some y →
    (ts₁ ++ t :: ts₂).all okChildB = true →
    shapeUpd ((getOpt attrs "width" parseF32).getD 0)
      ((getOpt attrs "height" parseF32).getD 0) t = some s →
    ts₂.all (fun u => (shapeUpd ((getOpt attrs "width" parseF32).getD 0)
      ((getOpt attrs "height" parseF32).getD 0) u).isNone) = true →
    ∃ obj, Object.new attrs (XTree.flattenList (ts₁ ++ t :: ts₂) ++ .end_ "object" :: rest) =
      (.ok obj, rest) ∧ obj.shape = s := by
  intro attrs ts₁ ts₂ t rest x y s hx hy hok hupd hafter
  obtain ⟨pr', hloop⟩ := objectLoop_flatten ((getOpt attrs "width" parseF32).getD 0)
    ((getOpt attrs "height" parseF32).getD 0) (XTree.sizeList (ts₁ ++ t :: ts₂))
    (ts₁ ++ t :: ts₂) le_rfl hok none [] rest
  have hfold : foldShape ((getOpt attrs "width" parseF32).getD 0)
      ((getOpt attrs "height" parseF32).getD 0) none (ts₁ ++ t :: ts₂) = some s := by
    rw [foldShape_append]
    show foldShape _ _ _ (t :: ts₂) = some s
    rw [show foldShape ((getOpt attrs "width" parseF32).getD 0)
        ((getOpt attrs "height" parseF32).getD 0)
        (foldShape ((getOpt attrs "width" parseF32).getD 0)
          ((getOpt attrs "height" parseF32).getD 0) none ts₁) (t :: ts₂) =
      foldShape ((getOpt attrs "width" parseF32).getD 0)
        ((getOpt attrs "height" parseF32).getD 0) (some s) ts₂ from by
      simp only [foldShape, hupd]]
    apply foldShape_of_none
    intro u hu
    rw [List.all_eq_true] at hafter
    have := hafter u hu
    simpa [Option.isNone_iff_eq_none] using this
  rw [hfold] at hloop
  refine ⟨⟨(getOpt attrs "id" parseU32).getD 0, (getOpt attrs "gid" parseU32).getD 0,
    (getOpt attrs "name" some).getD "", (getOpt attrs "type" some).getD "", x, y,
    (getOpt attrs "rotation" parseF32).getD 0, (getOpt attrs "visible" parseBool).getD true,
    s, pr'⟩, ?_, rfl⟩
  simp only [Object.new, hx, hy, hloop]
  simp

/-- Witness for C8 at a concrete input: an ellipse child followed by a polygon
child; the polygon, being last, wins. -/
theorem c8_witness :
    getOpt [("x", "1"), ("y", "2")] "x" parseF32 = some 1 ∧
    getOpt [("x", "1"), ("y", "2")] "y" parseF32 = some 2 ∧
    ([XTree.elem "ellipse" [] []] ++ XTree.elem "polygon" [("points", "0,0 1,0")] [] ::
      []).all okChildB = true ∧
    shapeUpd ((getOpt [("x", "1"), ("y", "2")] "width" parseF32).getD 0)
      ((getOpt [("x", "1"), ("y", "2")] "height" parseF32).getD 0)
      (XTree.elem "polygon" [("points", "0,0 1,0")] []) = some (.Polygon [(0, 0), (1, 0)]) ∧
    ∃ obj, Object.new [("x", "1"), ("y", "2")]
        (XTree.flattenList ([XTree.elem "ellipse" [] []] ++
          XTree.elem "polygon" [("points", "0,0 1,0")] [] :: []) ++ .end_ "object" :: []) =
      (.ok obj, []) ∧ obj.shape = .Polygon [(0, 0), (1, 0)] :=
  ⟨by decide, by decide, by decide, by decide,
    c8_last_shape_wins [("x", "1"), ("y", "2")] [XTree.elem "ellipse" [] []] []
      (XTree.elem "polygon" [("points", "0,0 1,0")] []) [] 1 2 (.Polygon [(0, 0), (1, 0)])
      (by decide) (by decide) (by decide) (by decide) (by decide)⟩

/-- C9: the object visible coercion only parses "true" and "false"; any other
string (including "0" and "1") silently degrades and leaves visible true, whereas
the ObjectGroup visible coercion parses an integer and compares it with 1, so a
group with visible "0" is invisible. -/
theorem c9_visible_coercion :
    (∀ (attrs : List (String × String)) (rest : List RawEvent) (v : String) (x y : Rat),
      getAttr attrs "visible" = some v → v ≠ "true" → v ≠ "false" →
      getOpt attrs "x" parseF32 = some x → getOpt attrs "y" parseF32 = some y →
      ∃ obj, Object.new attrs (.end_ "object" :: rest) = (.ok obj, rest) ∧
        obj.visible = true) ∧
    ∀ (gattrs : List (String × String)) (grest : List RawEvent),
      getAttr gattrs "visible" = some "0" →
      ∃ g, ObjectGroup.new gattrs (.end_ "objectgroup" :: grest) = (.ok g, grest) ∧
        g.visible = false := by
  constructor
  · intro attrs rest v x y hv hvt hvf hx hy
    have hvb : getOpt attrs "visible" parseBool = none := by
      rw [getOpt, hv]
      simp [parseBool, hvt, hvf]
    have hloop : objectLoop ((getOpt attrs "width" parseF32).getD 0)
        ((getOpt attrs "height" parseF32).getD 0) none [] (.end_ "object" :: rest) =
        (.ok (none, []), rest) := by simp [objectLoop]
    refine ⟨⟨(getOpt attrs "id" parseU32).getD 0, (getOpt attrs "gid" parseU32).getD 0,
      (getOpt attrs "name" some).getD "", (getOpt attrs "type" some).getD "", x, y,
      (getOpt attrs "rotation" parseF32).getD 0, true,
      .Rect ((getOpt attrs "width" parseF32).getD 0) ((getOpt attrs "height" parseF32).getD 0),
      []⟩, ?_, rfl⟩
    simp only [Object.new, hx, hy, hloop]
    simp [hvb]
  · intro gattrs grest hv
    have hloop : objectGroupLoop [] (.end_ "objectgroup" :: grest) = (.ok [], grest) := by
      simp [objectGroupLoop]
    have hvg : getOpt gattrs "visible" (fun s => (parseI32 s).map (fun i => i == 1)) =
        some false := by
      rw [getOpt, hv]
      decide
    refine ⟨⟨(getOpt gattrs "name" some).getD "", (getOpt gattrs "opacity" parseF32).getD 1,
      false, [], getOpt gattrs "color" parseColour⟩, ?_, rfl⟩
    simp only [ObjectGroup.new, hloop, hvg]
    simp

/-- Witness for C9 at a concrete input: an object and a group both carrying
visible equal to "0". -/
theorem c9_witness :
    getAttr [("x", "1"), ("y", "2"), ("visible", "0")] "visible" = some "0" ∧
    (∃ obj, Object.new [("x", "1"), ("y", "2"), ("visible", "0")] (.end_ "object" :: []) =
      (.ok obj, []) ∧ obj.visible = true) ∧
    ∃ g, ObjectGroup.new [("visible", "0")] (.end_ "objectgroup" :: []) = (.ok g, []) ∧
      g.visible = false :=
  ⟨by decide,
    (c9_visible_coercion.1 [("x", "1"), ("y", "2"), ("visible", "0")] [] "0" 1 2
      (by decide) (by decide) (by decide) (by decide) (by decide)),
    c9_visible_coercion.2 [("visible", "0")] [] (by decide)⟩

/-- C10: ObjectGroup attribute extraction has no required keys, so it succeeds on
every attribute list; the declared "object groups must have a name" error is
unreachable; ObjectGroup::new can fail only through a child object's parse or a
cursor decoding / premature-end error. -/
theorem c10_objectgroup_extraction :
    (∀ (attrs : List (String × String)) (rest : List RawEvent),
      ∃ g, ObjectGroup.new attrs (.end_ "objectgroup" :: rest) = (.ok g, rest)) ∧
    (∀ (attrs : List (String × String)) (es : List RawEvent),
      (ObjectGroup.new attrs es).1 ≠
        .error (.MalformedAttributes "object groups must have a name")) ∧
    ∀ (attrs : List (String × String)) (es : List RawEvent) (e : TiledError),
      (ObjectGroup.new attrs es).1 = .error e →
      e = .XmlDecodingError ∨ (∃ m, e = .PrematureEnd m) ∨
        ∃ oa oes, (Object.new oa oes).1 = .error e := by
  have hchar : ∀ (attrs : List (String × String)) (es : List RawEvent) (e : TiledError),
      (ObjectGroup.new attrs es).1 = .error e →
      e = .XmlDecodingError ∨ (∃ m, e = .PrematureEnd m) ∨
        ∃ oa oes, (Object.new oa oes).1 = .error e := by
    intro attrs es e he
    have hl : (objectGroupLoop [] es).1 = .error e := by
      rcases hloop : objectGroupLoop [] es with ⟨res, rest⟩
      rw [ObjectGroup.new, hloop] at he
      cases res with
      | ok objs => simp at he
      | error e' => simp at he; subst he; rfl
    exact objectGroupLoop_err [] es e hl
  refine ⟨?_, ?_, hchar⟩
  · intro attrs rest
    have hloop : objectGroupLoop [] (.end_ "objectgroup" :: rest) = (.ok [], rest) := by
      simp [objectGroupLoop]
    exact ⟨⟨(getOpt attrs "name" some).getD "", (getOpt attrs "opacity" parseF32).getD 1,
      (getOpt attrs "visible" (fun s => (parseI32 s).map (fun i => i == 1))).getD true, [],
      getOpt attrs "color" parseColour⟩, by rw [ObjectGroup.new, hloop]⟩
  · intro attrs es he
    rcases hchar attrs es _ he with h1 | ⟨m, h2⟩ | ⟨oa, oes, h3⟩
    · exact TiledError.noConfusion h1
    · exact TiledError.noConfusion h2
    · have := Object_new_errShape h3
      rw [show objectErrShape (.MalformedAttributes "object groups must have a name") = false
        from by decide] at this
      exact Bool.noConfusion this

/-- Witness for C10 at concrete inputs: every attribute list succeeds on a trivial
group, and a premature end of document produces exactly a PrematureEnd error. -/
theorem c10_witness :
    (∃ g, ObjectGroup.new [("opacity", "zzz")] (.end_ "objectgroup" :: []) = (.ok g, [])) ∧
    (ObjectGroup.new [] [.endDocument]).1 = .error (.PrematureEnd "objectgroup") ∧
    ((.PrematureEnd "objectgroup" : TiledError) = .XmlDecodingError ∨
      (∃ m, (.PrematureEnd "objectgroup" : TiledError) = .PrematureEnd m) ∨
      ∃ oa oes, (Object.new oa oes).1 = .error (.PrematureEnd "objectgroup")) := by
  have he : (ObjectGroup.new [] [.endDocument]).1 = .error (.PrematureEnd "objectgroup") := by
    simp [ObjectGroup.new, objectGroupLoop]
  exact ⟨c10_objectgroup_extraction.1 [("opacity", "zzz")] [], he,
    c10_objectgroup_extraction.2.2 [] [.endDocument] _ he⟩

theorem getAttr_cons_firstgid (v : String) (a : List (String × String)) (k : String)
    (hk : ("firstgid" == k) = false) : getAttr (("firstgid", v) :: a) k = getAttr a k := by
  unfold getAttr
  rw [List.find?_cons_of_neg]
  simp [hk]

/-- C2: a successful external-tileset resolution returns a Tileset whose first_gid
is the firstgid of the referencing tag, while name, tile_width, tile_height,
spacing and margin come from the external document's tileset tag; no firstgid is
read from the external tag's attributes. -/
theorem c2_external_resolution :
    (∀ (attrs : List (String × String)) (p : Path) (fs : FS) (ts : Tileset),
      Tileset.new_reference attrs (some p) fs = .ok ts →
      ∃ fg src doc pre extAttrs tail,
        getOpt attrs "firstgid" parseU32 = some fg ∧
        getAttr attrs "source" = some src ∧
        openFile fs (withFileName p src) = some doc ∧
        doc = pre ++ .start "tileset" extAttrs :: tail ∧
        ts.first_gid = fg ∧
        getAttr extAttrs "name" = some ts.name ∧
        getOpt extAttrs "tilewidth" parseU32 = some ts.tile_width ∧
        getOpt extAttrs "tileheight" parseU32 = some ts.tile_height ∧
        ts.spacing = (getOpt extAttrs "spacing" parseU32).getD 0 ∧
        ts.margin = (getOpt extAttrs "margin" parseU32).getD 0) ∧
    ∀ (fg : Nat) (v : String) (a : List (String × String)) (es : List RawEvent),
      Tileset.parse_external_tileset fg (("firstgid", v) :: a) es =
        Tileset.parse_external_tileset fg a es := by
  constructor
  · intro attrs p fs ts hr
    unfold Tileset.new_reference at hr
    rcases hfg : getOpt attrs "firstgid" parseU32 with _ | fg <;> rw [hfg] at hr
    · exact absurd hr (by simp)
    rcases hsrc : getAttr attrs "source" with _ | src <;> rw [hsrc] at hr
    · exact absurd hr (by simp)
    rcases hopen : openFile fs (withFileName p src) with _ | doc <;> simp only [hopen] at hr
    · exact absurd hr (by simp)
    rcases hext : Tileset.new_external fg doc with ⟨res, rest⟩
    rw [hext] at hr
    cases res with
    | error e => exact absurd hr (by simp)
    | ok ts' =>
      have hts : ts' = ts := by simpa using hr
      subst hts
      obtain ⟨pre, extAttrs, tail, hdoc, hparse⟩ := new_external_ok doc fg ts' rest hext
      obtain ⟨h1, h2, h3, h4, h5, h6⟩ := parse_external_fields hparse
      exact ⟨fg, src, doc, pre, extAttrs, tail, rfl, rfl, hopen, hdoc, h1, h2, h3, h4, h5, h6⟩
  · intro fg v a es
    have hname := getAttr_cons_firstgid v a "name" (by decide)
    have htw := getAttr_cons_firstgid v a "tilewidth" (by decide)
    have hth := getAttr_cons_firstgid v a "tileheight" (by decide)
    have hsp := getAttr_cons_firstgid v a "spacing" (by decide)
    have hmg := getAttr_cons_firstgid v a "margin" (by decide)
    unfold Tileset.parse_external_tileset getOpt
    rw [hname, htw, hth, hsp, hmg]

/-- Witness for C2 at a concrete input: a referencing tag with firstgid 5 and a
source sibling file holding a tileset named T with 16 by 16 tiles. -/
theorem c2_witness :
    Tileset.new_reference [("firstgid", "5"), ("source", "ts.tsx")] (some ["maps", "m.tmx"])
      [(["maps", "ts.tsx"],
        [.start "tileset" [("name", "T"), ("tilewidth", "16"), ("tileheight", "16")],
         .end_ "tileset", .endDocument])] = .ok ⟨5, "T", 16, 16, 0, 0, [], []⟩ ∧
    ∃ fg src doc pre extAttrs tail,
      getOpt [("firstgid", "5"), ("source", "ts.tsx")] "firstgid" parseU32 = some fg ∧
      getAttr [("firstgid", "5"), ("source", "ts.tsx")] "source" = some src ∧
      openFile [(["maps", "ts.tsx"],
        [.start "tileset" [("name", "T"), ("tilewidth", "16"), ("tileheight", "16")],
         .end_ "tileset", .endDocument])] (withFileName ["maps", "m.tmx"] src) = some doc ∧
      doc = pre ++ .start "tileset" extAttrs :: tail ∧
      (⟨5, "T", 16, 16, 0, 0, [], []⟩ : Tileset).first_gid = fg ∧
      getAttr extAttrs "name" = some (⟨5, "T", 16, 16, 0, 0, [], []⟩ : Tileset).name ∧
      getOpt extAttrs "tilewidth" parseU32 =
        some (⟨5, "T", 16, 16, 0, 0, [], []⟩ : Tileset).tile_width ∧
      getOpt extAttrs "tileheight" parseU32 =
        some (⟨5, "T", 16, 16, 0, 0, [], []⟩ : Tileset).tile_height ∧
      (⟨5, "T", 16, 16, 0, 0, [], []⟩ : Tileset).spacing =
        (getOpt extAttrs "spacing" parseU32).getD 0 ∧
      (⟨5, "T", 16, 16, 0, 0, [], []⟩ : Tileset).margin =
        (getOpt extAttrs "margin" parseU32).getD 0 := by
  have hloop : tilesetLoop [] [] [RawEvent.end_ "tileset", RawEvent.endDocument] =
      (.ok ([], []), [RawEvent.endDocument]) := by simp [tilesetLoop]
  have h1 : getAttr [("name", "T"), ("tilewidth", "16"), ("tileheight", "16")] "name" =
      some "T" := by decide
  have h2 : getOpt [("name", "T"), ("tilewidth", "16"), ("tileheight", "16")]
      "tilewidth" parseU32 = some 16 := by decide
  have h3 : getOpt [("name", "T"), ("tilewidth", "16"), ("tileheight", "16")]
      "tileheight" parseU32 = some 16 := by decide
  have h4 : getOpt [("name", "T"), ("tilewidth", "16"), ("tileheight", "16")]
      "spacing" parseU32 = none := by decide
  have h5 : getOpt [("name", "T"), ("tilewidth", "16"), ("tileheight", "16")]
      "margin" parseU32 = none := by decide
  have hpe : Tileset.parse_external_tileset 5
      [("name", "T"), ("tilewidth", "16"), ("tileheight", "16")]
      [RawEvent.end_ "tileset", RawEvent.endDocument] =
      (.ok ⟨5, "T", 16, 16, 0, 0, [], []⟩, [RawEvent.endDocument]) := by
    simp only [Tileset.parse_external_tileset, h1, h2, h3, h4, h5, hloop]
    simp
  have hext : Tileset.new_external 5
      [.start "tileset" [("name", "T"), ("tilewidth", "16"), ("tileheight", "16")],
       .end_ "tileset", .endDocument] =
      (.ok ⟨5, "T", 16, 16, 0, 0, [], []⟩, [RawEvent.endDocument]) := by
    rw [show Tileset.new_external 5
        [.start "tileset" [("name", "T"), ("tilewidth", "16"), ("tileheight", "16")],
         .end_ "tileset", .endDocument] =
      Tileset.parse_external_tileset 5
        [("name", "T"), ("tilewidth", "16"), ("tileheight", "16")]
        [RawEvent.end_ "tileset", RawEvent.endDocument] from by
      simp [Tileset.new_external]]
    exact hpe
  have h6 : getOpt [("firstgid", "5"), ("source", "ts.tsx")] "firstgid" parseU32 =
      some 5 := by decide
  have h7 : getAttr [("firstgid", "5"), ("source", "ts.tsx")] "source" =
      some "ts.tsx" := by decide
  have h8 : openFile [(["maps", "ts.tsx"],
      [.start "tileset" [("name", "T"), ("tilewidth", "16"), ("tileheight", "16")],
       .end_ "tileset", .endDocument])] (withFileName ["maps", "m.tmx"] "ts.tsx") =
      some [.start "tileset" [("name", "T"), ("tilewidth", "16"), ("tileheight", "16")],
        .end_ "tileset", .endDocument] := by decide
  have hres : Tileset.new_reference [("firstgid", "5"), ("source", "ts.tsx")]
      (some ["maps", "m.tmx"])
      [(["maps", "ts.tsx"],
        [.start "tileset" [("name", "T"), ("tilewidth", "16"), ("tileheight", "16")],
         .end_ "tileset", .endDocument])] = .ok ⟨5, "T", 16, 16, 0, 0, [], []⟩ := by
    simp only [Tileset.new_reference, h6, h7, h8, hext]
  exact ⟨hres, (c2_external_resolution.1 _ _ _ _ hres).elim
    (fun fg hfg => ⟨fg, hfg⟩)⟩

end Tiled
